import Mathlib

/-!
# habitlogger: streak, history and persistence

A shallow embedding of `Backend/server.js` and of the logic of
`Frontend/src/components/HabitTracker.jsx`.

* A JavaScript `Date` is its time value: milliseconds since the epoch, an `Int`.
* The host time zone is explicit (`Zone`): `getDate`/`setDate` work in local time,
  `toISOString` in UTC, exactly as in ECMAScript.
* A date key (`"YYYY-MM-DD"`) is identified with the calendar day it names, as its
  day number since 1970-01-01; `civilFromDays` gives its year, month and day.
* The `while (true)` loop of `calculateStreak` takes fuel: `none` means that the loop
  has not finished within the given number of iterations.
* A call reads the clock once: every `new Date()` of one call gives the same time `now`.
-/

namespace HabitLogger

/-! ## ECMAScript dates -/

/-- Milliseconds in a day. -/
def msPerDay : Int := 86400000

/-- Milliseconds in an hour. -/
def msPerHour : Int := 3600000

/-- The `Day(t)` of ECMAScript: the day number of a time value. -/
def Day (t : Int) : Int := t / msPerDay

/-- The `TimeWithinDay(t)` of ECMAScript. -/
def TimeWithinDay (t : Int) : Int := t % msPerDay

/-- The `MakeDate(day, time)` of ECMAScript. -/
def MakeDate (day time : Int) : Int := day * msPerDay + time

/-- Year, month (1..12) and day of month (1..31) of a day number, in the proleptic
Gregorian calendar. -/
def civilFromDays (n : Int) : Int × Int × Int :=
  let z := n + 719468
  let era := z / 146097
  let doe := z % 146097
  let yoe := (doe - doe / 1460 + doe / 36524 - doe / 146096) / 365
  let doy := doe - (365 * yoe + yoe / 4 - yoe / 100)
  let mp := (5 * doy + 2) / 153
  let d := doy - (153 * mp + 2) / 5 + 1
  let m := if mp < 10 then mp + 3 else mp - 9
  let y := yoe + era * 400
  (if m ≤ 2 then y + 1 else y, m, d)

/-- Day number of a calendar date (year, month 1..12, day of month). -/
def daysFromCivil (y m d : Int) : Int :=
  let y1 := if m ≤ 2 then y - 1 else y
  let era := y1 / 400
  let yoe := y1 % 400
  let mp := if m > 2 then m - 3 else m + 9
  let doy := (153 * mp + 2) / 5 + d - 1
  let doe := yoe * 365 + yoe / 4 - yoe / 100 + doy
  era * 146097 + doe - 719468

/-- The `DateFromTime(t)` of ECMAScript: the day of the month, 1..31. -/
def DateFromTime (t : Int) : Int := (civilFromDays (Day t)).2.2

/-- The `WeekDay(t)` of ECMAScript: 0 is Sunday. -/
def WeekDay (t : Int) : Int := (Day t + 4) % 7

/-- The host time zone, as ECMAScript sees it. -/
structure Zone where
  /-- The `LocalTZA(t, true)` of ECMAScript: the offset (ms) of local time from UTC at the
  UTC time `t`. -/
  offsetAtUTC : Int → Int
  /-- The `LocalTZA(t, false)` of ECMAScript: the offset (ms) to use for the local time
  value `t`. -/
  offsetAtLocal : Int → Int

/-- A zone whose offset from UTC never changes. -/
def Zone.fixed (c : Int) : Zone := ⟨fun _ => c, fun _ => c⟩

/-- The zone of a host that runs in UTC. -/
def Zone.utc : Zone := Zone.fixed 0

/-- A zone with one change of offset, at the UTC time `at_`: `before` until then,
`after` from then on. A local time that the change skips or repeats is read with
the offset in force before the change, as ECMAScript prescribes. -/
def Zone.oneChange (at_ before after : Int) : Zone :=
  ⟨fun t => if t < at_ then before else after,
   fun l => if l < at_ + max before after then before else after⟩

/-- The `LocalTime(t)` of ECMAScript. -/
def LocalTime (z : Zone) (t : Int) : Int := t + z.offsetAtUTC t

/-- The `UTC(t)` of ECMAScript: the time value of a local time. -/
def UTC (z : Zone) (t : Int) : Int := t - z.offsetAtLocal t

/-- The method `Date.prototype.getDate()`: the day of the month in local time. -/
def getDate (z : Zone) (t : Int) : Int := DateFromTime (LocalTime z t)

/-- The `MakeDay(YearFromTime(l), MonthFromTime(l), dt)` of ECMAScript: the day number of
the first day of the month of `l`, plus `dt - 1`. -/
def MakeDay (l dt : Int) : Int := Day l - (DateFromTime l - 1) + dt - 1

/-- The method `Date.prototype.setDate(dt)`: the new time value. Time values stay far
inside the range of `Date`, so `TimeClip` is the identity. -/
def setDate (z : Zone) (t dt : Int) : Int :=
  let l := LocalTime z t
  UTC z (MakeDate (MakeDay l dt) (TimeWithinDay l))

/-- A date key `"YYYY-MM-DD"`, as the day number of the calendar day it names. -/
abbrev DateKey := Int

/-- The expression `d.toISOString().split('T')[0]`: the UTC calendar date of a time value. -/
def toISODate (t : Int) : DateKey := Day t

/-- The function `getTodayString()`, called at time `now`. -/
def getTodayString (now : Int) : DateKey := toISODate now

/-- The expression `date.toLocaleDateString('en-US', { weekday: 'short' })`: the weekday in
local time. -/
def weekdayShort (z : Zone) (t : Int) : String :=
  match WeekDay (LocalTime z t) with
  | 0 => "Sun" | 1 => "Mon" | 2 => "Tue" | 3 => "Wed" | 4 => "Thu" | 5 => "Fri"
  | _ => "Sat"

/-! ## Data model -/

/-- A completion entry `{ completed, timestamp }`; the timestamp is the time value
whose ISO string is stored. -/
structure Entry where
  completed : Bool
  timestamp : Int
  deriving DecidableEq

/-- The `records` object: date keys with their entries, in insertion order. -/
abbrev Records := List (DateKey × Entry)

/-- The lookup `records[key]`: `none` is `undefined`. -/
def Records.get (r : Records) (key : DateKey) : Option Entry := r.lookup key

/-- The objects `{ ...records, [key]: e }` and `records` after `records[key] = e`: an
existing key keeps its place and takes the new entry, a new key goes last. -/
def Records.set : Records → DateKey → Entry → Records
  | [], key, e => [(key, e)]
  | (k, v) :: rest, key, e =>
      if k = key then (k, e) :: rest else (k, v) :: Records.set rest key e

/-- The keys `Object.keys(records)`. -/
def Records.keys (r : Records) : List DateKey := r.map Prod.fst

/-- JavaScript truthiness of `records[key]`: an entry is an object, hence truthy;
`undefined` is falsy. -/
def truthy : Option Entry → Bool
  | some _ => true
  | none => false

/-- The store after today has been marked at time `now`:
`records[todayString] = { completed: true, timestamp: new Date().toISOString() }`. -/
def Records.complete (r : Records) (now : Int) : Records :=
  r.set (getTodayString now) { completed := true, timestamp := now }

/-! ## calculateStreak -/

/-- The `while (true)` loop of `calculateStreak` (the same text in both files), on a
`records` object. `none`: not finished within the fuel. -/
def streakLoop (z : Zone) (records : Records) : Nat → Int → Nat → Option Nat
  | 0, _, _ => none
  | fuel + 1, currentDate, streak =>
      if truthy (records.get (toISODate currentDate)) then
        streakLoop z records fuel (setDate z currentDate (getDate z currentDate - 1))
          (streak + 1)
      else some streak

/-- What a call can do: return a value, or throw (a `TypeError` on reading a property
of `undefined`, or an exception of the browser's storage). -/
inductive Result (α : Type) where
  | ok (value : α)
  | typeError
  | storageError
  deriving DecidableEq

namespace Backend

/-- The function `calculateStreak(records)` of `server.js`, called at time `now`; `records = none`
is `undefined` or `null`, on which `records[dateString]` throws a `TypeError`. -/
def calculateStreak (z : Zone) (fuel : Nat) (now : Int) :
    Option Records → Option (Result Nat)
  | none => some Result.typeError
  | some records => (streakLoop z records fuel now 0).map Result.ok

end Backend

namespace Frontend

/-- The function `calculateStreak(records)` of `HabitTracker.jsx`, called at time `now`. -/
def calculateStreak (z : Zone) (fuel : Nat) (now : Int) :
    Option Records → Option (Result Nat)
  | none => some (Result.ok 0)
  | some records =>
      if records.keys.length = 0 then some (Result.ok 0)
      else (streakLoop z records fuel now 0).map Result.ok

end Frontend

/-! ## The 7-day history -/

/-- One entry of the history: `{ date, completed, dayName }`. -/
structure HistoryEntry where
  date : DateKey
  completed : Bool
  dayName : String
  deriving DecidableEq

/-- The body of the history loop for one `i`: the entry that is pushed. -/
def historyEntry (z : Zone) (records : Records) (today : Int) (i : Nat) : HistoryEntry :=
  let date := setDate z today (getDate z today - i)
  let dateString := toISODate date
  { date := dateString
    completed := truthy (records.get dateString)
    dayName := weekdayShort z date }

/-- The loop `for (let i = ...; i >= 0; i--) history.push(...)`, from `i` down to 0. -/
def historyLoop (z : Zone) (records : Records) (today : Int) :
    Nat → List HistoryEntry → List HistoryEntry
  | 0, history => history ++ [historyEntry z records today 0]
  | i + 1, history =>
      historyLoop z records today i (history ++ [historyEntry z records today (i + 1)])

/-- The function `getLast7Days(records)` of `HabitTracker.jsx`, and the loop of
`GET /api/habit/history`, run at time `now`. -/
def getLast7Days (z : Zone) (records : Records) (now : Int) : List HistoryEntry :=
  historyLoop z records now 6 []

/-! ## Backend: the data file and the routes -/

namespace Backend

/-- The `habit` object of the data file. A file written by hand may lack `records`. -/
structure Habit where
  name : String
  records : Option Records
  deriving DecidableEq

/-- The data file: `none` when it cannot be read or parsed. -/
abbrev FileState := Option Habit

/-- The `initialData` written at start-up when the data file does not exist. -/
def initialData : Habit := { name := "Drink Water", records := some [] }

/-- The data file right after start-up has created it. -/
def freshStore : FileState := some initialData

/-- The function `readData()`: the default habit when the file cannot be read. -/
def readData (file : FileState) : Habit :=
  match file with
  | some data => data
  | none => { name := "Drink Water", records := some [] }

/-- How a call of `fs.writeFileSync(DATA_FILE, text)` ends. The call opens the file with
flag `w`, which empties it, and then writes the text. -/
inductive WriteOutcome where
  /-- The text is written in full. -/
  | written
  /-- The call throws before the file is opened (no permission, read-only file system):
  the file is untouched. -/
  | failsAtOpen
  /-- The call throws after the open (disk full, quota, I/O error): the file is left empty
  or with a proper prefix of the text, neither of which is valid JSON. -/
  | failsAfterOpen
  deriving DecidableEq

/-- The function `writeData(data)`, for a given outcome of `fs.writeFileSync`. Returns the
file afterwards and the boolean result. -/
def writeData (outcome : WriteOutcome) (file : FileState) (data : Habit) : FileState × Bool :=
  match outcome with
  | WriteOutcome.written => (some data, true)
  | WriteOutcome.failsAtOpen => (file, false)
  | WriteOutcome.failsAfterOpen => (none, false)

/-- What a route sends. -/
inductive Response where
  | habit (name : String) (streak : Nat) (completedToday : Bool) (records : Records)
  | mutation (success : Bool) (streak : Nat) (completedToday : Bool) (message : String)
  | history (entries : List HistoryEntry)
  | error (status : Nat) (error : String)
  deriving DecidableEq

/-- The `success` field of a response, when it has one. -/
def Response.success? : Response → Option Bool
  | Response.mutation success _ _ _ => some success
  | _ => none

/-- The HTTP status of a response. -/
def Response.status : Response → Nat
  | Response.error status _ => status
  | _ => 200

/-- The route `GET /api/habit`. The result is the data file afterwards and the response,
`none` when the route has not answered within the fuel. -/
def getHabit (z : Zone) (fuel : Nat) (now : Int) (file : FileState) :
    FileState × Option Response :=
  let data := readData file
  match calculateStreak z fuel now data.records with
  | none => (file, none)
  | some (Result.ok streak) =>
      match data.records with
      | none => (file, some (Response.error 500 "Internal server error"))
      | some records =>
          let todayString := getTodayString now
          let completedToday := truthy (records.get todayString)
          (file, some (Response.habit data.name streak completedToday records))
  | some _ => (file, some (Response.error 500 "Internal server error"))

/-- The route `POST /api/habit/complete`. -/
def postComplete (z : Zone) (fuel : Nat) (now : Int) (outcome : WriteOutcome)
    (file : FileState) : FileState × Option Response :=
  let data := readData file
  match data.records with
  | none => (file, some (Response.error 500 "Internal server error"))
  | some records =>
      let data1 : Habit := { name := data.name, records := some (records.complete now) }
      match writeData outcome file data1 with
      | (file1, true) =>
          match calculateStreak z fuel now data1.records with
          | none => (file1, none)
          | some (Result.ok streak) =>
              (file1, some (Response.mutation true streak true
                "Habit marked as completed for today"))
          | some _ => (file1, some (Response.error 500 "Internal server error"))
      | (file1, false) => (file1, some (Response.error 500 "Failed to save data"))

/-- The route `POST /api/habit/reset`. -/
def postReset (outcome : WriteOutcome) (file : FileState) : FileState × Option Response :=
  let data := readData file
  let data1 : Habit := { name := data.name, records := some [] }
  match writeData outcome file data1 with
  | (file1, true) =>
      (file1, some (Response.mutation true 0 false "Habit data reset successfully"))
  | (file1, false) => (file1, some (Response.error 500 "Failed to save data"))

/-- The route `GET /api/habit/history`. -/
def getHistory (z : Zone) (now : Int) (file : FileState) : FileState × Option Response :=
  let data := readData file
  match data.records with
  | none => (file, some (Response.error 500 "Internal server error"))
  | some records => (file, some (Response.history (getLast7Days z records now)))

end Backend

/-! ## Front-end: the component state and its operations -/

namespace Frontend

/-- The `syncStatus` state: `'local'`, `'syncing'`, `'synced'`, `'error'`. -/
inductive SyncStatus where
  | local_
  | syncing
  | synced
  | error
  deriving DecidableEq

/-- The `action` argument of `syncWithBackend`. -/
inductive Action where
  | load
  | complete
  | reset
  deriving DecidableEq

/-- A habit document: what is saved locally (`{ name, records }`) and what
`GET /api/habit` answers (with `streak` and `completedToday` as well). -/
structure Doc where
  name : String
  records : Option Records
  streak : Option Nat
  completedToday : Option Bool
  deriving DecidableEq

/-- The `habitData` state; `records` is absent until the first load. -/
structure HabitData where
  name : String
  streak : Nat
  completedToday : Bool
  history : List HistoryEntry
  records : Option Records
  deriving DecidableEq

/-- An effect on the outside, recorded in the order it happens. -/
inductive Event where
  | savedLocally (data : Doc)
  | remoteCall (action : Action)
  deriving DecidableEq

/-- The component: its React state, the record in local storage (IndexedDB or
`localStorage`), and the effects so far. -/
structure State where
  habitData : HabitData
  loading : Bool
  error : Option String
  backendAvailable : Bool
  syncStatus : SyncStatus
  localStore : Option Doc
  trace : List Event
  deriving DecidableEq

/-- The state on mount, over a given local storage. -/
def initialState (localStore : Option Doc) : State :=
  { habitData :=
      { name := "Drink Water", streak := 0, completedToday := false, history := [],
        records := none }
    loading := true
    error := none
    backendAvailable := false
    syncStatus := SyncStatus.local_
    localStore := localStore
    trace := [] }

/-- The expression `a || b` on a string: the empty string is falsy. -/
def orElse (a b : String) : String := if a = "" then b else a

/-- The function `saveDataLocally(data)`: `localOk` tells whether the browser's storage
accepts the write; when it does not, the call throws and the stored record is unchanged. -/
def saveDataLocally (localOk : Bool) (data : Doc) (st : State) : Result State :=
  if localOk then
    Result.ok { st with localStore := some data, trace := st.trace ++ [Event.savedLocally data] }
  else Result.storageError

/-- The function `loadDataLocally()`. -/
def loadDataLocally (st : State) : Option Doc := st.localStore

/-- The function `syncWithBackend(action)`: `api` is the outcome of the request, `none`
when it throws (network error or a status that is not 2xx). Returns the new state and the
value returned (`none` is `null`). The timers that put the status back to `'local'`
later are not part of the call. -/
def syncWithBackend {α : Type} (api : Option α) (action : Action) (st : State) :
    State × Option α :=
  if st.backendAvailable = false then (st, none)
  else
    let st1 : State :=
      { st with syncStatus := SyncStatus.syncing, trace := st.trace ++ [Event.remoteCall action] }
    match api with
    | some result => ({ st1 with syncStatus := SyncStatus.synced }, some result)
    | none => ({ st1 with syncStatus := SyncStatus.error }, none)

/-- The `else` branch of `initializeData`: start from the default, empty habit. -/
def initializeEmpty (z : Zone) (now : Int) (localOk : Bool) (st : State) : State :=
  let initialData : Doc :=
    { name := "Drink Water", records := some [], streak := none, completedToday := none }
  match saveDataLocally localOk initialData st with
  | Result.ok st1 =>
      { st1 with
        habitData :=
          { name := "Drink Water", streak := 0, completedToday := false,
            history := getLast7Days z [] now, records := some [] }
        loading := false }
  | _ => { st with error := some "Failed to load habit data", loading := false }

/-- The function `initializeData()`, run at time `now`; `api` is the outcome of
`GET /api/habit`. `none`: not finished within the fuel. -/
def initializeData (z : Zone) (fuel : Nat) (now : Int) (api : Option Doc) (localOk : Bool)
    (st : State) : Option State :=
  let st0 : State := { st with loading := true }
  let (st1, backendData) :=
    if st0.backendAvailable then syncWithBackend api Action.load st0 else (st0, none)
  let localData := loadDataLocally st1
  let savedData := backendData <|> localData
  match savedData with
  | none => some (initializeEmpty z now localOk st1)
  | some saved =>
      match saved.records with
      | none => some (initializeEmpty z now localOk st1)
      | some records =>
          match calculateStreak z fuel now (some records) with
          | none => none
          | some (Result.ok streak) =>
              let todayString := toISODate now
              let completedToday := truthy (records.get todayString)
              let history := getLast7Days z records now
              let st2 : State :=
                { st1 with
                  habitData :=
                    { name := orElse saved.name "Drink Water", streak := streak,
                      completedToday := completedToday, history := history,
                      records := some records } }
              if backendData.isSome then
                match saveDataLocally localOk saved st2 with
                | Result.ok st3 => some { st3 with loading := false }
                | _ => some { st2 with error := some "Failed to load habit data", loading := false }
              else some { st2 with loading := false }
          | some _ =>
              some { st1 with error := some "Failed to load habit data", loading := false }

/-- The function `markDone()`, run at time `now`; `apiOk` tells whether the request to
`POST /api/habit/complete` succeeds. `none`: not finished within the fuel. -/
def markDone (z : Zone) (fuel : Nat) (now : Int) (apiOk : Bool) (localOk : Bool)
    (st : State) : Option State :=
  let habitData := st.habitData
  let updatedRecords : Records := (habitData.records.getD []).complete now
  let updatedData : Doc :=
    { name := habitData.name, records := some updatedRecords, streak := none,
      completedToday := none }
  match saveDataLocally localOk updatedData st with
  | Result.ok st1 =>
      let st2 := (syncWithBackend (if apiOk then some () else none) Action.complete st1).1
      match calculateStreak z fuel now (some updatedRecords) with
      | none => none
      | some (Result.ok newStreak) =>
          let newHistory := getLast7Days z updatedRecords now
          some { st2 with
                 habitData :=
                   { habitData with
                     streak := newStreak, completedToday := true, history := newHistory,
                     records := some updatedRecords } }
      | some _ => some { st2 with error := some "Failed to mark habit as done" }
  | _ => some { st with error := some "Failed to mark habit as done" }

/-- The function `resetHabit()`, run at time `now`; `apiOk` tells whether the request to
`POST /api/habit/reset` succeeds. -/
def resetHabit (z : Zone) (now : Int) (apiOk : Bool) (localOk : Bool) (st : State) : State :=
  let habitData := st.habitData
  let resetData : Doc :=
    { name := habitData.name, records := some [], streak := none, completedToday := none }
  match saveDataLocally localOk resetData st with
  | Result.ok st1 =>
      let st2 := (syncWithBackend (if apiOk then some () else none) Action.reset st1).1
      { st2 with
        habitData :=
          { name := habitData.name, streak := 0, completedToday := false,
            history := getLast7Days z [] now, records := some [] } }
  | _ => { st with error := some "Failed to reset habit data" }

end Frontend

/-! ## Concrete hosts and stores used in the examples -/

/-- US Eastern time around 10 March 2024: UTC-5 until 07:00 UTC on that day (02:00
local), UTC-4 from then on. -/
def easternMarch2024 : Zone :=
  Zone.oneChange (daysFromCivil 2024 3 10 * msPerDay + 7 * msPerHour)
    (-5 * msPerHour) (-4 * msPerHour)

/-- The time 2024-03-10T23:30:00Z, which is 19:30 of 10 March in US Eastern time. -/
def eveningOfChange : Int := daysFromCivil 2024 3 10 * msPerDay + 23 * msPerHour + 30 * 60000

/-- A store whose only key is 2024-03-10, marked at 12:00 UTC. -/
def onlyTenthOfMarch : Records :=
  [(daysFromCivil 2024 3 10,
    { completed := true, timestamp := daysFromCivil 2024 3 10 * msPerDay + 12 * msPerHour })]

/-- The time 2024-01-03T10:00:00Z. -/
def jan3At10 : Int := 1704276000000

/-- The time 2024-01-03T11:00:00Z. -/
def jan3At11 : Int := 1704279600000

/-- The component after a first load with no backend and nothing stored locally. -/
def loadedEmpty : Frontend.State :=
  Frontend.initializeEmpty Zone.utc jan3At10 true (Frontend.initialState none)

/-- The component after `markDone` at 10:00. -/
def markedOnce : Frontend.State :=
  (Frontend.markDone Zone.utc 5 jan3At10 false true loadedEmpty).getD loadedEmpty

/-- The component after a second `markDone`, at 11:00. -/
def markedTwice : Frontend.State :=
  (Frontend.markDone Zone.utc 5 jan3At11 false true markedOnce).getD markedOnce

/-- What `GET /api/habit` answers for the store marked on 2024-01-03 only. -/
def remoteDoc : Frontend.Doc :=
  { name := "Drink Water", records := some (Records.complete [] jan3At10), streak := some 1,
    completedToday := some true }

/-- A local copy with empty records. -/
def localDoc : Frontend.Doc :=
  { name := "Drink Water", records := some [], streak := none, completedToday := none }

/-- US Eastern time around 3 November 2024: UTC-4 until 06:00 UTC on that day (02:00
local), UTC-5 from then on. -/
def easternNovember2024 : Zone :=
  Zone.oneChange (daysFromCivil 2024 11 3 * msPerDay + 6 * msPerHour)
    (-4 * msPerHour) (-5 * msPerHour)

/-- The time 2024-11-04T00:30:00Z, which is 19:30 of 3 November in US Eastern time. -/
def eveningAfterFallBack : Int := daysFromCivil 2024 11 4 * msPerDay + 30 * 60000

/-- A store with the keys 2024-11-02, 2024-11-03 and 2024-11-04. -/
def firstDaysOfNovember : Records :=
  [(daysFromCivil 2024 11 2,
    { completed := true, timestamp := daysFromCivil 2024 11 2 * msPerDay + 12 * msPerHour }),
   (daysFromCivil 2024 11 3,
    { completed := true, timestamp := daysFromCivil 2024 11 3 * msPerDay + 12 * msPerHour }),
   (daysFromCivil 2024 11 4,
    { completed := true, timestamp := daysFromCivil 2024 11 4 * msPerDay + 10 * 60000 })]

/-- The zone Pacific/Apia around the end of 2011: UTC-10 until 2011-12-30T10:00Z (midnight
at the end of 29 December, local), UTC+14 from then on, so that 30 December does not
exist in local time. -/
def apiaDecember2011 : Zone :=
  Zone.oneChange (daysFromCivil 2011 12 30 * msPerDay + 10 * msPerHour)
    (-10 * msPerHour) (14 * msPerHour)

/-- The time 2011-12-30T10:30:00Z, which is 00:30 of 31 December in Pacific/Apia. -/
def apiaAfterSkippedDay : Int :=
  daysFromCivil 2011 12 30 * msPerDay + 10 * msPerHour + 30 * 60000

/-- The data file that holds "Drink Water", marked on 2024-01-03 at 10:00 only. -/
def storedOnce : Backend.FileState :=
  some { name := "Drink Water", records := some (Records.complete [] jan3At10) }

/-! ## Date arithmetic -/

theorem setDate_getDate_sub (z : Zone) (t i : Int) :
    setDate z t (getDate z t - i) = UTC z (LocalTime z t - i * msPerDay) := by
  unfold setDate getDate MakeDay MakeDate Day TimeWithinDay
  simp only []
  congr 1
  have h := Int.ediv_add_emod (LocalTime z t) msPerDay
  have e : (LocalTime z t / msPerDay - (DateFromTime (LocalTime z t) - 1) +
      (DateFromTime (LocalTime z t) - i) - 1) = LocalTime z t / msPerDay - i := by ring
  rw [e]
  linear_combination h

theorem setDate_fixed (c t i : Int) :
    setDate (Zone.fixed c) t (getDate (Zone.fixed c) t - i) = t - i * msPerDay := by
  rw [setDate_getDate_sub]
  simp only [UTC, LocalTime, Zone.fixed]
  ring

theorem Day_sub_days (t i : Int) : Day (t - i * msPerDay) = Day t - i := by
  unfold Day msPerDay
  omega

theorem toISODate_setDate_fixed (c t i : Int) :
    toISODate (setDate (Zone.fixed c) t (getDate (Zone.fixed c) t - i)) = toISODate t - i := by
  rw [setDate_fixed]
  exact Day_sub_days t i

/-! ## Records -/

theorem truthy_get_iff (r : Records) (key : DateKey) :
    truthy (r.get key) = true ↔ key ∈ r.keys := by
  induction r with
  | nil => simp [Records.get, Records.keys, truthy]
  | cons p rest ih =>
    obtain ⟨k, v⟩ := p
    by_cases h : key = k
    · subst h
      simp [Records.get, Records.keys, truthy, List.lookup]
    · have hb : (key == k) = false := by simpa using h
      simp only [Records.get, List.lookup, hb, Records.keys, List.map_cons, List.mem_cons, h,
        false_or]
      simpa [Records.get, Records.keys] using ih

theorem truthy_get_nil (key : DateKey) : truthy (Records.get [] key) = false := rfl

theorem Records.keys_set_of_mem (r : Records) (key : DateKey) (e : Entry)
    (h : key ∈ r.keys) : (r.set key e).keys = r.keys := by
  induction r with
  | nil => simp [Records.keys] at h
  | cons p rest ih =>
    obtain ⟨k, v⟩ := p
    by_cases hk : k = key
    · simp [Records.set, Records.keys, hk]
    · have hm : key ∈ Records.keys rest := by
        simp only [Records.keys, List.map_cons, List.mem_cons] at h
        rcases h with h | h
        · exact absurd h.symm hk
        · exact h
      have := ih hm
      simp only [Records.keys] at this
      simp [Records.set, Records.keys, hk, this]

theorem Records.keys_set_of_not_mem (r : Records) (key : DateKey) (e : Entry)
    (h : key ∉ r.keys) : (r.set key e).keys = r.keys ++ [key] := by
  induction r with
  | nil => simp [Records.set, Records.keys]
  | cons p rest ih =>
    obtain ⟨k, v⟩ := p
    simp only [Records.keys, List.map_cons, List.mem_cons, not_or] at h
    have hk : ¬ k = key := fun hh => h.1 hh.symm
    have := ih h.2
    simp only [Records.keys] at this
    simp [Records.set, Records.keys, hk, this]

theorem Records.mem_keys_set (r : Records) (key : DateKey) (e : Entry) :
    key ∈ (r.set key e).keys := by
  by_cases h : key ∈ r.keys
  · rw [Records.keys_set_of_mem r key e h]; exact h
  · rw [Records.keys_set_of_not_mem r key e h]; simp

theorem Records.get_set_self (r : Records) (key : DateKey) (e : Entry) :
    (r.set key e).get key = some e := by
  induction r with
  | nil => simp [Records.set, Records.get, List.lookup]
  | cons p rest ih =>
    obtain ⟨k, v⟩ := p
    by_cases hk : k = key
    · simp [Records.set, Records.get, List.lookup, hk]
    · have hb : (key == k) = false := by simpa using fun hh : key = k => hk hh.symm
      simp only [Records.get] at ih
      simp [Records.set, Records.get, List.lookup, hk, hb, ih]

theorem Records.get_set_ne (r : Records) (key k' : DateKey) (e : Entry) (h : k' ≠ key) :
    (r.set key e).get k' = r.get k' := by
  induction r with
  | nil =>
    have hb : (k' == key) = false := by simpa using h
    simp [Records.set, Records.get, List.lookup, hb]
  | cons p rest ih =>
    obtain ⟨k, v⟩ := p
    simp only [Records.get] at ih
    by_cases hk : k = key
    · subst hk
      have hb : (k' == k) = false := by simpa using h
      simp [Records.set, Records.get, List.lookup, hb]
    · by_cases hkk : k' = k
      · subst hkk
        simp [Records.set, Records.get, List.lookup, hk]
      · have hb : (k' == k) = false := by simpa using hkk
        simp [Records.set, Records.get, List.lookup, hk, hb, ih]

theorem Records.nodup_keys_set (r : Records) (key : DateKey) (e : Entry)
    (h : r.keys.Nodup) : (r.set key e).keys.Nodup := by
  by_cases hm : key ∈ r.keys
  · rw [Records.keys_set_of_mem r key e hm]; exact h
  · rw [Records.keys_set_of_not_mem r key e hm]
    exact List.Nodup.append h (List.nodup_singleton key) (by simpa using hm)

/-- The walk depends on the store only through which keys it holds. -/
theorem streakLoop_congr (z : Zone) (r1 r2 : Records)
    (h : ∀ key, truthy (r1.get key) = truthy (r2.get key)) :
    ∀ (fuel : Nat) (t : Int) (s : Nat), streakLoop z r1 fuel t s = streakLoop z r2 fuel t s := by
  intro fuel
  induction fuel with
  | zero => intro t s; rfl
  | succ f ih =>
    intro t s
    simp only [streakLoop, h, ih]

theorem truthy_get_set_set (r : Records) (key : DateKey) (e1 e2 : Entry) (k' : DateKey) :
    truthy (((r.set key e1).set key e2).get k') = truthy ((r.set key e1).get k') := by
  by_cases h : k' = key
  · subst h
    simp [Records.get_set_self, truthy]
  · rw [Records.get_set_ne _ _ _ _ h]

/-! ## The streak walk on a host with a fixed offset -/

/-- On a host whose offset from UTC never changes, the walk counts exactly the `k`
consecutive dates present before the first absent one. -/
theorem streakLoop_fixed (c : Int) (records : Records) :
    ∀ (k fuel : Nat) (t : Int) (s : Nat),
      (∀ i : Nat, i < k → truthy (records.get (toISODate t - i)) = true) →
      truthy (records.get (toISODate t - k)) = false →
      k < fuel →
      streakLoop (Zone.fixed c) records fuel t s = some (s + k) := by
  intro k
  induction k with
  | zero =>
    intro fuel t s _ habs hf
    obtain ⟨f, rfl⟩ : ∃ f, fuel = f + 1 := ⟨fuel - 1, by omega⟩
    simp only [Nat.cast_zero, sub_zero] at habs
    simp [streakLoop, habs]
  | succ k ih =>
    intro fuel t s hpres habs hf
    obtain ⟨f, rfl⟩ : ∃ f, fuel = f + 1 := ⟨fuel - 1, by omega⟩
    have h0 : truthy (records.get (toISODate t)) = true := by
      simpa using hpres 0 (Nat.succ_pos k)
    have hstep := toISODate_setDate_fixed c t 1
    simp only [one_mul] at hstep
    rw [streakLoop, if_pos h0]
    rw [ih f _ (s + 1) ?_ ?_ (by omega)]
    · congr 1; omega
    · intro i hi
      rw [hstep]
      have := hpres (i + 1) (by omega)
      rw [← this]; congr 2; push_cast; ring
    · rw [hstep, ← habs]; congr 2; push_cast; ring

/-- On a host with a fixed offset the walk depends on the time only through its date. -/
theorem streakLoop_fixed_same_day (c : Int) (records : Records) :
    ∀ (fuel : Nat) (t1 t2 : Int) (s : Nat), toISODate t1 = toISODate t2 →
      streakLoop (Zone.fixed c) records fuel t1 s
        = streakLoop (Zone.fixed c) records fuel t2 s := by
  intro fuel
  induction fuel with
  | zero => intro t1 t2 s _; rfl
  | succ f ih =>
    intro t1 t2 s h
    have h1 := toISODate_setDate_fixed c t1 1
    have h2 := toISODate_setDate_fixed c t2 1
    simp only [one_mul] at h1 h2
    rw [streakLoop, streakLoop, h]
    rw [ih _ (setDate (Zone.fixed c) t2 (getDate (Zone.fixed c) t2 - 1)) (s + 1)
      (by rw [h1, h2, h])]

/-! ## C1 -/

/-- C1 does not hold on the code. On a host in US Eastern time, at 2024-03-10T23:30Z, with
a store whose only key is today's date 2024-03-10 (so today is present and the day
before is absent, k = 1), both `calculateStreak` functions return 2: the step back of
one local day lands on the same UTC date, which is counted a second time. -/
theorem C1_streak_counts_today_twice :
    getTodayString eveningOfChange = daysFromCivil 2024 3 10 ∧
    onlyTenthOfMarch.keys = [getTodayString eveningOfChange] ∧
    truthy (onlyTenthOfMarch.get (getTodayString eveningOfChange)) = true ∧
    truthy (onlyTenthOfMarch.get (getTodayString eveningOfChange - 1)) = false ∧
    toISODate (setDate easternMarch2024 eveningOfChange
      (getDate easternMarch2024 eveningOfChange - 1)) = getTodayString eveningOfChange ∧
    (∀ fuel : Nat, Backend.calculateStreak easternMarch2024 (fuel + 3) eveningOfChange
      (some onlyTenthOfMarch) = some (Result.ok 2)) ∧
    (∀ fuel : Nat, Frontend.calculateStreak easternMarch2024 (fuel + 3) eveningOfChange
      (some onlyTenthOfMarch) = some (Result.ok 2)) := by
  refine ⟨by decide, by decide, by decide, by decide, by decide, ?_, ?_⟩
  · intro fuel
    simp only [Backend.calculateStreak]
    rw [streakLoop, if_pos (by decide), streakLoop, if_pos (by decide), streakLoop,
      if_neg (by decide)]
    rfl
  · intro fuel
    simp only [Frontend.calculateStreak]
    rw [if_neg (by decide), streakLoop, if_pos (by decide), streakLoop, if_pos (by decide),
      streakLoop, if_neg (by decide)]
    rfl

/-! ## The history -/

theorem getLast7Days_eq (z : Zone) (records : Records) (now : Int) :
    getLast7Days z records now =
      [historyEntry z records now 6, historyEntry z records now 5,
       historyEntry z records now 4, historyEntry z records now 3,
       historyEntry z records now 2, historyEntry z records now 1,
       historyEntry z records now 0] := rfl

theorem historyEntry_date_fixed (c : Int) (records : Records) (now : Int) (i : Nat) :
    (historyEntry (Zone.fixed c) records now i).date = toISODate now - i := by
  simp only [historyEntry]
  exact toISODate_setDate_fixed c now i

theorem historyEntry_completed (z : Zone) (records : Records) (now : Int) (i : Nat) :
    (historyEntry z records now i).completed
      = truthy (records.get (historyEntry z records now i).date) := rfl

theorem historyEntry_date_indep (z : Zone) (r1 r2 : Records) (now : Int) (i : Nat) :
    (historyEntry z r1 now i).date = (historyEntry z r2 now i).date := rfl

/-- On a host with a fixed offset the history dates are today-6 .. today. -/
theorem getLast7Days_dates_fixed (c : Int) (records : Records) (now : Int) :
    (getLast7Days (Zone.fixed c) records now).map HistoryEntry.date =
      [getTodayString now - 6, getTodayString now - 5, getTodayString now - 4,
       getTodayString now - 3, getTodayString now - 2, getTodayString now - 1,
       getTodayString now] := by
  simp only [getLast7Days_eq, List.map, historyEntry_date_fixed, getTodayString]
  simp






/-! ## C2 -/

/-- C2 does not hold on the code. On a host in US Eastern time, at 2024-03-10T23:30Z (today is
2024-03-10), the 7 history dates are 5, 6, 7, 8, 9, 10 and again 10 March, whatever the
store holds: they do not start at today-6 and are not strictly increasing. The backend
route sends this list. -/
theorem C2_history_repeats_today :
    getTodayString eveningOfChange = daysFromCivil 2024 3 10 ∧
    (∀ records : Records,
      (getLast7Days easternMarch2024 records eveningOfChange).map
          (fun e => civilFromDays e.date) =
        [(2024, 3, 5), (2024, 3, 6), (2024, 3, 7), (2024, 3, 8), (2024, 3, 9), (2024, 3, 10),
         (2024, 3, 10)]) ∧
    (∀ (name : String) (records : Records),
      (Backend.getHistory easternMarch2024 eveningOfChange (some ⟨name, some records⟩)).2 =
        some (Backend.Response.history
          (getLast7Days easternMarch2024 records eveningOfChange))) := by
  refine ⟨by decide, ?_, fun _ _ => rfl⟩
  intro records
  simp only [getLast7Days_eq, List.map, historyEntry]
  decide
theorem mem_getLast7Days (z : Zone) (records : Records) (now : Int) (e : HistoryEntry) :
    e ∈ getLast7Days z records now ↔
      ∃ i : Nat, i ≤ 6 ∧ e = historyEntry z records now i := by
  rw [getLast7Days_eq]
  constructor
  · intro h
    simp only [List.mem_cons, List.mem_singleton, List.not_mem_nil, or_false] at h
    rcases h with h | h | h | h | h | h | h
    exacts [⟨6, by omega, h⟩, ⟨5, by omega, h⟩, ⟨4, by omega, h⟩, ⟨3, by omega, h⟩,
      ⟨2, by omega, h⟩, ⟨1, by omega, h⟩, ⟨0, by omega, h⟩]
  · rintro ⟨i, hi, rfl⟩
    interval_cases i <;> simp

/-! ## C3 -/

/-- C3: the history has 7 entries, each entry is flagged completed exactly when its date
is a key of the store, and on the empty store no entry is flagged; the backend route
sends this list. With the keys 2024-01-01, 2024-01-02, 2024-01-03 and today = 2024-01-03,
on a host with a fixed offset, the history covers 2023-12-28 .. 2024-01-03 and exactly
the last three entries are flagged. -/
theorem C3_history_flags (z : Zone) (records : Records) (now : Int) :
    (getLast7Days z records now).length = 7 ∧
    (∀ e ∈ getLast7Days z records now, (e.completed = true ↔ e.date ∈ records.keys)) ∧
    (∀ e ∈ getLast7Days z [] now, e.completed = false) ∧
    (∀ name : String, (Backend.getHistory z now (some ⟨name, some records⟩)).2 =
      some (Backend.Response.history (getLast7Days z records now))) ∧
    (∀ (c : Int) (e1 e2 e3 : Entry), toISODate now = daysFromCivil 2024 1 3 →
      (getLast7Days (Zone.fixed c)
          [(daysFromCivil 2024 1 1, e1), (daysFromCivil 2024 1 2, e2),
           (daysFromCivil 2024 1 3, e3)] now).map
          (fun e => (civilFromDays e.date, e.completed)) =
        [((2023, 12, 28), false), ((2023, 12, 29), false), ((2023, 12, 30), false),
         ((2023, 12, 31), false), ((2024, 1, 1), true), ((2024, 1, 2), true),
         ((2024, 1, 3), true)]) := by
  refine ⟨rfl, ?_, ?_, fun _ => rfl, ?_⟩
  · intro e he
    obtain ⟨i, _, rfl⟩ := (mem_getLast7Days z records now e).1 he
    rw [historyEntry_completed]
    exact truthy_get_iff records _
  · intro e he
    obtain ⟨i, _, rfl⟩ := (mem_getLast7Days z [] now e).1 he
    rfl
  · intro c e1 e2 e3 hday
    simp only [getLast7Days_eq, List.map, historyEntry_completed, historyEntry_date_fixed, hday]
    rfl

/-- C3 at 2024-01-03T10:00Z on a host at UTC-5. -/
theorem C3_history_flags_witness :
    toISODate 1704276000000 = daysFromCivil 2024 1 3 ∧
    (getLast7Days (Zone.fixed (-18000000))
          [(daysFromCivil 2024 1 1, ⟨true, 1704103200000⟩),
           (daysFromCivil 2024 1 2, ⟨true, 1704189600000⟩),
           (daysFromCivil 2024 1 3, ⟨true, 1704276000000⟩)] 1704276000000).map
          (fun e => (civilFromDays e.date, e.completed)) =
        [((2023, 12, 28), false), ((2023, 12, 29), false), ((2023, 12, 30), false),
         ((2023, 12, 31), false), ((2024, 1, 1), true), ((2024, 1, 2), true),
         ((2024, 1, 3), true)] :=
  ⟨by decide,
   (C3_history_flags Zone.utc [] 1704276000000).2.2.2.2 (-18000000) _ _ _ (by decide)⟩

/-! ## C4 -/

theorem frontend_calculateStreak_congr (z : Zone) (fuel : Nat) (t : Int) (r1 r2 : Records)
    (hk : r1.keys.length = r2.keys.length)
    (h : ∀ key, truthy (r1.get key) = truthy (r2.get key)) :
    Frontend.calculateStreak z fuel t (some r1) = Frontend.calculateStreak z fuel t (some r2) := by
  simp only [Frontend.calculateStreak, hk, streakLoop_congr z r1 r2 h]

theorem backend_calculateStreak_congr (z : Zone) (fuel : Nat) (t : Int) (r1 r2 : Records)
    (h : ∀ key, truthy (r1.get key) = truthy (r2.get key)) :
    Backend.calculateStreak z fuel t (some r1) = Backend.calculateStreak z fuel t (some r2) := by
  simp only [Backend.calculateStreak, streakLoop_congr z r1 r2 h]

/-- The front-end `calculateStreak` never throws. -/
theorem frontend_calculateStreak_ok (z : Zone) (fuel : Nat) (t : Int) (r : Option Records)
    (x : Result Nat) (h : Frontend.calculateStreak z fuel t r = some x) :
    ∃ k, x = Result.ok k := by
  cases r with
  | none => exact ⟨0, by simpa [Frontend.calculateStreak] using h.symm⟩
  | some r =>
    simp only [Frontend.calculateStreak] at h
    split at h
    · exact ⟨0, by simpa using h.symm⟩
    · cases hs : streakLoop z r fuel t 0 with
      | none => simp [hs] at h
      | some k => exact ⟨k, by simpa [hs] using h.symm⟩

/-- What `markDone` leaves when the local write succeeds and the loop finishes. -/
theorem Frontend.markDone_some (z : Zone) (fuel : Nat) (now : Int) (apiOk : Bool)
    (st st1 : Frontend.State) (h : Frontend.markDone z fuel now apiOk true st = some st1) :
    st1.habitData.records = some ((st.habitData.records.getD []).complete now) ∧
    st1.localStore = some ⟨st.habitData.name,
      some ((st.habitData.records.getD []).complete now), none, none⟩ ∧
    st1.habitData.name = st.habitData.name ∧
    st1.habitData.completedToday = true ∧
    st1.habitData.history = getLast7Days z ((st.habitData.records.getD []).complete now) now ∧
    st1.error = st.error ∧
    Frontend.calculateStreak z fuel now (some ((st.habitData.records.getD []).complete now))
      = some (Result.ok st1.habitData.streak) := by
  simp only [Frontend.markDone, Frontend.saveDataLocally, if_true] at h
  cases hc : Frontend.calculateStreak z fuel now
      (some ((st.habitData.records.getD []).complete now)) with
  | none => simp [hc] at h
  | some x =>
    obtain ⟨k, rfl⟩ := frontend_calculateStreak_ok _ _ _ _ _ hc
    simp only [hc, Option.some.injEq] at h
    subst h
    by_cases hb : st.backendAvailable = false <;> cases apiOk <;>
      simp [Frontend.syncWithBackend, hb]


/-- The data file after `POST /api/habit/complete` when the write succeeds. -/
theorem Backend.postComplete_file (z : Zone) (fuel : Nat) (now : Int) (name : String)
    (records : Records) :
    (Backend.postComplete z fuel now Backend.WriteOutcome.written
        (some ⟨name, some records⟩)).1
      = some ⟨name, some (records.complete now)⟩ := by
  simp only [Backend.postComplete, Backend.readData, Backend.writeData, if_true]
  cases Backend.calculateStreak z fuel now (some (records.complete now)) with
  | none => rfl
  | some x => cases x <;> rfl

/-- C4: marking today twice on the same day (both writes succeeding) leaves the same
key list as marking it once, without duplicates; today holds the entry of the second call
and every other key keeps its entry; at any time of observation both stores give the
same streak, and the streak of the second answer is that of the once-marked store. The
same holds for the records and the local copy of the front-end after two `markDone`. On
a host with a fixed offset the second call answers what the first one answered. -/
theorem C4_complete_twice_same_day (z : Zone) (fuel1 fuel2 : Nat) (now1 now2 : Int)
    (name : String) (records : Records)
    (hday : getTodayString now2 = getTodayString now1) :
    (Backend.postComplete z fuel1 now1 Backend.WriteOutcome.written
        (some ⟨name, some records⟩)).1
      = some ⟨name, some (records.complete now1)⟩ ∧
    (Backend.postComplete z fuel2 now2 Backend.WriteOutcome.written
        (some ⟨name, some (records.complete now1)⟩)).1
      = some ⟨name, some ((records.complete now1).complete now2)⟩ ∧
    ((records.complete now1).complete now2).keys = (records.complete now1).keys ∧
    (records.keys.Nodup → ((records.complete now1).complete now2).keys.Nodup) ∧
    ((records.complete now1).complete now2).get (getTodayString now1)
      = some { completed := true, timestamp := now2 } ∧
    (∀ key : DateKey, key ≠ getTodayString now1 →
      ((records.complete now1).complete now2).get key = (records.complete now1).get key ∧
      (records.complete now1).get key = records.get key) ∧
    (∀ (z1 : Zone) (fuel : Nat) (t : Int),
      Backend.calculateStreak z1 fuel t (some ((records.complete now1).complete now2))
        = Backend.calculateStreak z1 fuel t (some (records.complete now1)) ∧
      Frontend.calculateStreak z1 fuel t (some ((records.complete now1).complete now2))
        = Frontend.calculateStreak z1 fuel t (some (records.complete now1))) ∧
    (∀ k : Nat, Backend.calculateStreak z fuel2 now2 (some (records.complete now1))
        = some (Result.ok k) →
      (Backend.postComplete z fuel2 now2 Backend.WriteOutcome.written
          (some ⟨name, some (records.complete now1)⟩)).2
        = some (Backend.Response.mutation true k true "Habit marked as completed for today")) ∧
    (∀ (api1 api2 : Bool) (st st1 st2 : Frontend.State),
      st.habitData.records = some records →
      Frontend.markDone z fuel1 now1 api1 true st = some st1 →
      Frontend.markDone z fuel2 now2 api2 true st1 = some st2 →
      st1.habitData.records = some (records.complete now1) ∧
      st2.habitData.records = some ((records.complete now1).complete now2) ∧
      st1.localStore = some ⟨st.habitData.name, some (records.complete now1), none, none⟩ ∧
      st2.localStore
        = some ⟨st.habitData.name, some ((records.complete now1).complete now2), none, none⟩ ∧
      Frontend.calculateStreak z fuel2 now2 (some (records.complete now1))
        = some (Result.ok st2.habitData.streak)) ∧
    (∀ (c : Int) (fuel : Nat),
      (Backend.postComplete (Zone.fixed c) fuel now2 Backend.WriteOutcome.written
          (some ⟨name, some (records.complete now1)⟩)).2
        = (Backend.postComplete (Zone.fixed c) fuel now1 Backend.WriteOutcome.written
            (some ⟨name, some records⟩)).2) := by
  have hkeys : ((records.complete now1).complete now2).keys = (records.complete now1).keys := by
    unfold Records.complete
    rw [hday]
    exact Records.keys_set_of_mem _ _ _ (Records.mem_keys_set _ _ _)
  have htruthy : ∀ key, truthy (((records.complete now1).complete now2).get key)
      = truthy ((records.complete now1).get key) := by
    intro key
    unfold Records.complete
    rw [hday]
    exact truthy_get_set_set _ _ _ _ _
  refine ⟨Backend.postComplete_file _ _ _ _ _, Backend.postComplete_file _ _ _ _ _, hkeys,
    ?_, ?_, ?_, ?_, ?_, ?_, ?_⟩
  · intro hn
    rw [hkeys]
    exact Records.nodup_keys_set _ _ _ hn
  · unfold Records.complete
    rw [hday]
    exact Records.get_set_self _ _ _
  · intro key hne
    unfold Records.complete
    rw [hday]
    exact ⟨Records.get_set_ne _ _ _ _ hne, Records.get_set_ne _ _ _ _ hne⟩
  · intro z1 fuel t
    exact ⟨backend_calculateStreak_congr z1 fuel t _ _ htruthy,
      frontend_calculateStreak_congr z1 fuel t _ _ (by rw [hkeys]) htruthy⟩
  · intro k hk
    have hk2 : Backend.calculateStreak z fuel2 now2
        (some ((records.complete now1).complete now2)) = some (Result.ok k) := by
      rw [backend_calculateStreak_congr z fuel2 now2 _ _ htruthy]; exact hk
    simp [Backend.postComplete, Backend.readData, Backend.writeData, hk2]
  · intro api1 api2 st st1 st2 hrec h1 h2
    have e1 := Frontend.markDone_some z fuel1 now1 api1 st st1 h1
    have e2 := Frontend.markDone_some z fuel2 now2 api2 st1 st2 h2
    rw [hrec] at e1
    simp only [Option.getD_some] at e1
    rw [e1.1] at e2
    simp only [Option.getD_some] at e2
    refine ⟨e1.1, e2.1, e1.2.1, ?_, ?_⟩
    · rw [e2.2.1, e1.2.2.1]
    · rw [← frontend_calculateStreak_congr z fuel2 now2 _ _ (by rw [hkeys]) htruthy]
      exact e2.2.2.2.2.2.2
  · intro c fuel
    have hsame : Backend.calculateStreak (Zone.fixed c) fuel now2
          (some ((records.complete now1).complete now2))
        = Backend.calculateStreak (Zone.fixed c) fuel now1 (some (records.complete now1)) := by
      rw [backend_calculateStreak_congr (Zone.fixed c) fuel now2 _ _ htruthy]
      simp only [Backend.calculateStreak]
      rw [streakLoop_fixed_same_day c _ fuel now2 now1 0 hday]
    simp only [Backend.postComplete, Backend.readData, Backend.writeData, if_true, hsame]
    cases Backend.calculateStreak (Zone.fixed c) fuel now1 (some (records.complete now1)) with
    | none => rfl
    | some x => cases x <;> rfl
/-- C4 on the empty store, marked at 10:00 and again at 11:00 on 2024-01-03. -/
theorem C4_complete_twice_same_day_witness :
    getTodayString jan3At11 = getTodayString jan3At10 ∧
    ((Records.complete [] jan3At10).complete jan3At11).keys
      = (Records.complete [] jan3At10).keys ∧
    Frontend.markDone Zone.utc 5 jan3At10 false true loadedEmpty = some markedOnce ∧
    Frontend.markDone Zone.utc 5 jan3At11 false true markedOnce = some markedTwice ∧
    markedTwice.habitData.records = some ((Records.complete [] jan3At10).complete jan3At11) :=
  ⟨by decide,
   (C4_complete_twice_same_day Zone.utc 5 5 jan3At10 jan3At11 "Drink Water" []
      (by decide)).2.2.1,
   rfl, rfl,
   ((C4_complete_twice_same_day Zone.utc 5 5 jan3At10 jan3At11 "Drink Water" []
      (by decide)).2.2.2.2.2.2.2.2.1 false false loadedEmpty markedOnce markedTwice
        rfl rfl rfl).2.1⟩

theorem countP_le_pred_lt (keys : List Int) (d : Int) (h : d ∈ keys) :
    keys.countP (fun x => decide (x ≤ d - 1)) + 1
      ≤ keys.countP (fun x => decide (x ≤ d)) := by
  induction keys with
  | nil => simp at h
  | cons x xs ih =>
    have hmono : xs.countP (fun x => decide (x ≤ d - 1))
        ≤ xs.countP (fun x => decide (x ≤ d)) := by
      apply List.countP_mono_left
      intro y _ hy
      simp only [decide_eq_true_eq] at hy ⊢
      omega
    simp only [List.countP_cons, decide_eq_true_eq]
    rcases List.mem_cons.1 h with hx | hx
    · subst hx
      have h1 : ¬ d ≤ d - 1 := by omega
      have h2 : d ≤ d := le_refl d
      rw [if_neg h1, if_pos h2]
      omega
    · have := ih hx
      split_ifs <;> omega

/-- On a host with a fixed offset the walk ends: with more fuel than there are keys not
after the current date, it returns, having counted at most that many days. -/
theorem streakLoop_fixed_returns (c : Int) (records : Records) :
    ∀ (n : Nat) (t : Int) (s : Nat),
      records.keys.countP (fun x => decide (x ≤ toISODate t)) ≤ n →
      ∃ k : Nat, k ≤ n ∧
        ∀ fuel : Nat, n < fuel → streakLoop (Zone.fixed c) records fuel t s = some (s + k) := by
  intro n
  induction n with
  | zero =>
    intro t s hn
    refine ⟨0, le_refl _, ?_⟩
    intro fuel hf
    obtain ⟨f, rfl⟩ : ∃ f, fuel = f + 1 := ⟨fuel - 1, by omega⟩
    have habs : truthy (records.get (toISODate t)) = false := by
      cases hh : truthy (records.get (toISODate t)) with
      | false => rfl
      | true =>
        have hm := (truthy_get_iff records _).1 hh
        have hlt : records.keys.countP (fun x => decide (x ≤ toISODate t - 1)) + 1
            ≤ records.keys.countP (fun x => decide (x ≤ toISODate t)) :=
          countP_le_pred_lt records.keys _ hm
        omega
    simp [streakLoop, habs]
  | succ m ih =>
    intro t s hn
    cases hh : truthy (records.get (toISODate t)) with
    | false =>
      refine ⟨0, Nat.zero_le _, ?_⟩
      intro fuel hf
      obtain ⟨f, rfl⟩ : ∃ f, fuel = f + 1 := ⟨fuel - 1, by omega⟩
      simp [streakLoop, hh]
    | true =>
      have hm := (truthy_get_iff records _).1 hh
      have hlt : records.keys.countP (fun x => decide (x ≤ toISODate t - 1)) + 1
          ≤ records.keys.countP (fun x => decide (x ≤ toISODate t)) :=
        countP_le_pred_lt records.keys _ hm
      have hstep := toISODate_setDate_fixed c t 1
      simp only [one_mul] at hstep
      obtain ⟨k, hk, hfuel⟩ := ih (setDate (Zone.fixed c) t (getDate (Zone.fixed c) t - 1))
        (s + 1) (by rw [hstep]; omega)
      refine ⟨k + 1, by omega, ?_⟩
      intro fuel hf
      obtain ⟨f, rfl⟩ : ∃ f, fuel = f + 1 := ⟨fuel - 1, by omega⟩
      rw [streakLoop, if_pos hh, hfuel f (by omega)]
      congr 1; omega

theorem countP_keys_le_length (records : Records) (d : DateKey) :
    records.keys.countP (fun x => decide (x ≤ d)) ≤ records.length := by
  have := List.countP_le_length (fun x => decide (x ≤ d)) (l := records.keys)
  simpa [Records.keys] using this

/-- On a host with a fixed offset both `calculateStreak` return once the fuel exceeds the
number of keys. -/
theorem calculateStreak_fixed_returns (c : Int) (records : Records) (now : Int) :
    ∃ k : Nat, k ≤ records.length ∧ ∀ fuel : Nat, records.length < fuel →
      Backend.calculateStreak (Zone.fixed c) fuel now (some records) = some (Result.ok k) ∧
      ∃ k1 : Nat, Frontend.calculateStreak (Zone.fixed c) fuel now (some records)
        = some (Result.ok k1) := by
  obtain ⟨k, hk, hf⟩ := streakLoop_fixed_returns c records records.length now 0
    (countP_keys_le_length records _)
  refine ⟨k, hk, ?_⟩
  intro fuel hfuel
  have := hf fuel hfuel
  simp only [zero_add] at this
  refine ⟨by simp [Backend.calculateStreak, this], ?_⟩
  simp only [Frontend.calculateStreak]
  split
  · exact ⟨0, rfl⟩
  · exact ⟨k, by simp [this]⟩

/-! ## C5 -/

/-- C5: whatever the prior state, a reset whose write succeeds leaves the prior name with
empty records, and answers streak 0 and completedToday false, which are what
`calculateStreak` and the today flag give on the empty records at any time. The
front-end `resetHabit` does the same for its state and local copy. -/
theorem C5_reset_empties_records (prior : Backend.Habit) (z : Zone) (fuel : Nat) (now : Int)
    (apiOk : Bool) (st : Frontend.State) :
    Backend.postReset Backend.WriteOutcome.written (some prior) =
      (some ⟨prior.name, some []⟩,
       some (Backend.Response.mutation true 0 false "Habit data reset successfully")) ∧
    Backend.calculateStreak z (fuel + 1) now (some []) = some (Result.ok 0) ∧
    truthy (Records.get [] (getTodayString now)) = false ∧
    (Frontend.resetHabit z now apiOk true st).habitData =
      ⟨st.habitData.name, 0, false, getLast7Days z [] now, some []⟩ ∧
    (Frontend.resetHabit z now apiOk true st).localStore =
      some ⟨st.habitData.name, some [], none, none⟩ ∧
    Frontend.calculateStreak z fuel now (some []) = some (Result.ok 0) := by
  refine ⟨rfl, rfl, rfl, ?_, ?_, rfl⟩
  · by_cases hb : st.backendAvailable = false <;> cases apiOk <;>
      simp [Frontend.resetHabit, Frontend.saveDataLocally, Frontend.syncWithBackend, hb]
  · by_cases hb : st.backendAvailable = false <;> cases apiOk <;>
      simp [Frontend.resetHabit, Frontend.saveDataLocally, Frontend.syncWithBackend, hb]

/-! ## C6 -/

/-- C6 does not hold on the backend. On the empty store both `calculateStreak` return 0, and the
front-end one returns 0 on absent records; the backend one throws a `TypeError` on
absent records, and `GET /api/habit` on a data file whose habit has no `records` answers
with status 500. -/
theorem C6_backend_throws_on_absent_records (z : Zone) (fuel : Nat) (now : Int) (name : String) :
    Backend.calculateStreak z fuel now none = some Result.typeError ∧
    Backend.getHabit z fuel now (some ⟨name, none⟩) =
      (some ⟨name, none⟩, some (Backend.Response.error 500 "Internal server error")) ∧
    Frontend.calculateStreak z fuel now none = some (Result.ok 0) ∧
    Frontend.calculateStreak z fuel now (some []) = some (Result.ok 0) ∧
    Backend.calculateStreak z (fuel + 1) now (some []) = some (Result.ok 0) :=
  ⟨rfl, rfl, rfl, rfl, rfl⟩

/-! ## C7 -/

/-- C7: when `calculateStreak` returns `k` on the stored records, `GET /api/habit` answers
with the stored name and records, streak `k` and a completedToday flag that is true exactly
when today's key is in the records, and leaves the data file as it was. On the freshly
initialised file the answer is name "Drink Water", streak 0, completedToday false and empty
records. On a host with a fixed offset the route answers once the fuel exceeds the number
of keys. -/
theorem C7_get_habit (z : Zone) (fuel : Nat) (now : Int) (name : String) (records : Records)
    (k : Nat) (hk : Backend.calculateStreak z fuel now (some records) = some (Result.ok k)) :
    (∃ completedToday : Bool,
      Backend.getHabit z fuel now (some ⟨name, some records⟩) =
        (some ⟨name, some records⟩,
         some (Backend.Response.habit name k completedToday records)) ∧
      (completedToday = true ↔ getTodayString now ∈ records.keys)) ∧
    (∀ (z1 : Zone) (fuel1 : Nat) (now1 : Int),
      Backend.getHabit z1 (fuel1 + 1) now1 Backend.freshStore =
        (Backend.freshStore, some (Backend.Response.habit "Drink Water" 0 false []))) ∧
    (∀ (c : Int) (fuel1 : Nat) (now1 : Int), records.length < fuel1 →
      ∃ (k1 : Nat) (completedToday : Bool),
        Backend.getHabit (Zone.fixed c) fuel1 now1 (some ⟨name, some records⟩) =
          (some ⟨name, some records⟩,
           some (Backend.Response.habit name k1 completedToday records))) := by
  refine ⟨⟨truthy (records.get (getTodayString now)), ?_, truthy_get_iff records _⟩,
    fun _ _ _ => rfl, ?_⟩
  · simp [Backend.getHabit, Backend.readData, hk]
  · intro c fuel1 now1 hf
    obtain ⟨k1, _, h⟩ := calculateStreak_fixed_returns c records now1
    refine ⟨k1, truthy (records.get (getTodayString now1)), ?_⟩
    simp [Backend.getHabit, Backend.readData, (h fuel1 hf).1]

/-- C7 on the store marked on 2024-01-03 only, read at 11:00 that day on a UTC host. -/
theorem C7_get_habit_witness :
    ∃ completedToday : Bool,
      Backend.getHabit Zone.utc 5 jan3At11
          (some ⟨"Drink Water", some (Records.complete [] jan3At10)⟩) =
        (some ⟨"Drink Water", some (Records.complete [] jan3At10)⟩,
         some (Backend.Response.habit "Drink Water" 1 completedToday
           (Records.complete [] jan3At10))) ∧
      (completedToday = true ↔ getTodayString jan3At11 ∈ (Records.complete [] jan3At10).keys) :=
  (C7_get_habit Zone.utc 5 jan3At11 "Drink Water" (Records.complete [] jan3At10) 1
    (by decide)).1

/-! ## C8 -/

/-- A backend `calculateStreak` on present records never throws. -/
theorem backend_calculateStreak_ok (z : Zone) (fuel : Nat) (t : Int) (r : Records)
    (x : Result Nat) (h : Backend.calculateStreak z fuel t (some r) = some x) :
    ∃ k, x = Result.ok k := by
  simp only [Backend.calculateStreak] at h
  cases hs : streakLoop z r fuel t 0 with
  | none => simp [hs] at h
  | some k => exact ⟨k, by simpa [hs] using h.symm⟩

/-- C8 as stated does not hold. On the file that holds "Drink Water" marked on 2024-01-03, a reset,
or a complete at 11:00 that day, whose write fails after the file was opened answers with
status 500 and no `success` field, but the file is not the one from before the request: it
cannot be parsed any more. Before the request `GET /api/habit` answers streak 1 with the
stored records; after it, the default habit with empty records and streak 0. -/
theorem C8_failed_write_loses_the_file :
    Backend.postReset Backend.WriteOutcome.failsAfterOpen storedOnce
      = (none, some (Backend.Response.error 500 "Failed to save data")) ∧
    Backend.postComplete Zone.utc 5 jan3At11 Backend.WriteOutcome.failsAfterOpen storedOnce
      = (none, some (Backend.Response.error 500 "Failed to save data")) ∧
    (Backend.postReset Backend.WriteOutcome.failsAfterOpen storedOnce).1 ≠ storedOnce ∧
    (Backend.postComplete Zone.utc 5 jan3At11 Backend.WriteOutcome.failsAfterOpen storedOnce).1
      ≠ storedOnce ∧
    (Backend.Response.error 500 "Failed to save data").success? = none ∧
    Backend.getHabit Zone.utc 5 jan3At11 storedOnce
      = (storedOnce,
         some (Backend.Response.habit "Drink Water" 1 true (Records.complete [] jan3At10))) ∧
    Backend.getHabit Zone.utc 5 jan3At11
        (Backend.postReset Backend.WriteOutcome.failsAfterOpen storedOnce).1
      = (none, some (Backend.Response.habit "Drink Water" 0 false [])) := by
  refine ⟨rfl, rfl, ?_, ?_, rfl, rfl, rfl⟩
  · intro h
    have h1 : (Backend.postReset Backend.WriteOutcome.failsAfterOpen storedOnce).1 = none := rfl
    rw [h1] at h
    exact Option.noConfusion h
  · intro h
    have h1 : (Backend.postComplete Zone.utc 5 jan3At11 Backend.WriteOutcome.failsAfterOpen
        storedOnce).1 = none := rfl
    rw [h1] at h
    exact Option.noConfusion h

/-- C8, amended: on a stored habit, an answer of `POST /api/habit/complete` has
`success: true` exactly when the write of the new state succeeds, and then the file holds
the new state and the streak is the one `calculateStreak` returns on it. When the write
fails the answer is an error with status 500 and no `success` field; the file is the
one from before if the write fails before the file is opened, and an unreadable file, read
back as the default habit, if it fails after the open. `POST /api/habit/reset` always
answers, in the same way. On a host with a fixed offset a succeeding complete does answer
once the fuel exceeds the number of keys by more than one. -/
theorem C8_success_iff_written (z : Zone) (fuel : Nat) (now : Int) (name : String)
    (records : Records) (prior : Backend.Habit) (outcome : Backend.WriteOutcome) :
    (∀ resp : Backend.Response,
      (Backend.postComplete z fuel now outcome (some ⟨name, some records⟩)).2 = some resp →
      (resp.success? = some true ↔ outcome = Backend.WriteOutcome.written)) ∧
    (∀ k : Nat,
      Backend.calculateStreak z fuel now (some (records.complete now)) = some (Result.ok k) →
      Backend.postComplete z fuel now Backend.WriteOutcome.written (some ⟨name, some records⟩)
        = (some ⟨name, some (records.complete now)⟩,
           some (Backend.Response.mutation true k true
             "Habit marked as completed for today"))) ∧
    (Backend.postComplete z fuel now Backend.WriteOutcome.written
        (some ⟨name, some records⟩)).1
      = some ⟨name, some (records.complete now)⟩ ∧
    Backend.postComplete z fuel now Backend.WriteOutcome.failsAtOpen (some ⟨name, some records⟩)
      = (some ⟨name, some records⟩, some (Backend.Response.error 500 "Failed to save data")) ∧
    Backend.postComplete z fuel now Backend.WriteOutcome.failsAfterOpen
        (some ⟨name, some records⟩)
      = (none, some (Backend.Response.error 500 "Failed to save data")) ∧
    (∀ c : Int, records.length + 1 < fuel → ∃ k : Nat,
      Backend.postComplete (Zone.fixed c) fuel now Backend.WriteOutcome.written
          (some ⟨name, some records⟩)
        = (some ⟨name, some (records.complete now)⟩,
           some (Backend.Response.mutation true k true
             "Habit marked as completed for today"))) ∧
    (∃ resp : Backend.Response,
      (Backend.postReset outcome (some prior)).2 = some resp ∧
      (resp.success? = some true ↔ outcome = Backend.WriteOutcome.written)) ∧
    Backend.postReset Backend.WriteOutcome.written (some prior)
      = (some ⟨prior.name, some []⟩,
         some (Backend.Response.mutation true 0 false "Habit data reset successfully")) ∧
    Backend.postReset Backend.WriteOutcome.failsAtOpen (some prior)
      = (some prior, some (Backend.Response.error 500 "Failed to save data")) ∧
    Backend.postReset Backend.WriteOutcome.failsAfterOpen (some prior)
      = (none, some (Backend.Response.error 500 "Failed to save data")) ∧
    Backend.readData none = ⟨"Drink Water", some []⟩ ∧
    (Backend.Response.error 500 "Failed to save data").success? = none ∧
    (Backend.Response.error 500 "Failed to save data").status = 500 := by
  refine ⟨?_, ?_, Backend.postComplete_file _ _ _ _ _, rfl, rfl, ?_, ?_, rfl, rfl, rfl, rfl,
    rfl, rfl⟩
  · intro resp h
    cases outcome with
    | written =>
      simp only [Backend.postComplete, Backend.readData, Backend.writeData] at h
      cases hc : Backend.calculateStreak z fuel now (some (records.complete now)) with
      | none => simp [hc] at h
      | some x =>
        obtain ⟨k, rfl⟩ := backend_calculateStreak_ok _ _ _ _ _ hc
        simp only [hc, Option.some.injEq] at h
        subst h
        simp [Backend.Response.success?]
    | failsAtOpen =>
      have : resp = Backend.Response.error 500 "Failed to save data" := by
        simpa [Backend.postComplete, Backend.readData, Backend.writeData] using h.symm
      subst this
      simp [Backend.Response.success?]
    | failsAfterOpen =>
      have : resp = Backend.Response.error 500 "Failed to save data" := by
        simpa [Backend.postComplete, Backend.readData, Backend.writeData] using h.symm
      subst this
      simp [Backend.Response.success?]
  · intro k hk
    simp [Backend.postComplete, Backend.readData, Backend.writeData, hk]
  · intro c hf
    obtain ⟨k, _, h⟩ := calculateStreak_fixed_returns c (records.complete now) now
    have hlen : (records.complete now).length ≤ records.length + 1 := by
      have h1 : (records.complete now).keys.length ≤ records.keys.length + 1 := by
        unfold Records.complete
        by_cases hm : getTodayString now ∈ records.keys
        · rw [Records.keys_set_of_mem _ _ _ hm]; omega
        · rw [Records.keys_set_of_not_mem _ _ _ hm]; simp
      simpa [Records.keys] using h1
    refine ⟨k, ?_⟩
    simp [Backend.postComplete, Backend.readData, Backend.writeData, (h fuel (by omega)).1]
  · cases outcome with
    | written =>
      exact ⟨Backend.Response.mutation true 0 false "Habit data reset successfully", rfl,
        by simp [Backend.Response.success?]⟩
    | failsAtOpen =>
      exact ⟨Backend.Response.error 500 "Failed to save data", rfl,
        by simp [Backend.Response.success?]⟩
    | failsAfterOpen =>
      exact ⟨Backend.Response.error 500 "Failed to save data", rfl,
        by simp [Backend.Response.success?]⟩

/-- C8, amended, on the file that holds "Drink Water" marked on 2024-01-03, for a complete at
11:00 that day: with a succeeding write, and with a write that fails at open. -/
theorem C8_success_iff_written_witness :
    Backend.calculateStreak Zone.utc 5 jan3At11
      (some ((Records.complete [] jan3At10).complete jan3At11)) = some (Result.ok 1) ∧
    Backend.postComplete Zone.utc 5 jan3At11 Backend.WriteOutcome.written storedOnce
      = (some ⟨"Drink Water", some ((Records.complete [] jan3At10).complete jan3At11)⟩,
         some (Backend.Response.mutation true 1 true "Habit marked as completed for today")) ∧
    (Backend.postComplete Zone.utc 5 jan3At11 Backend.WriteOutcome.failsAtOpen storedOnce).2
      = some (Backend.Response.error 500 "Failed to save data") ∧
    ((Backend.Response.error 500 "Failed to save data").success? = some true ↔
      Backend.WriteOutcome.failsAtOpen = Backend.WriteOutcome.written) :=
  ⟨by decide,
   (C8_success_iff_written Zone.utc 5 jan3At11 "Drink Water" (Records.complete [] jan3At10)
      Backend.initialData Backend.WriteOutcome.written).2.1 1 (by decide),
   rfl,
   (C8_success_iff_written Zone.utc 5 jan3At11 "Drink Water" (Records.complete [] jan3At10)
      Backend.initialData Backend.WriteOutcome.failsAtOpen).1 _ rfl⟩

/-! ## C9 -/

/-- The default habit document that is saved when nothing is available. -/
theorem Frontend.initializeEmpty_ok (z : Zone) (now : Int) (st : Frontend.State) :
    Frontend.initializeEmpty z now true st =
      { st with
        habitData := ⟨"Drink Water", 0, false, getLast7Days z [] now, some []⟩
        loading := false
        localStore := some ⟨"Drink Water", some [], none, none⟩
        trace := st.trace ++
          [Frontend.Event.savedLocally ⟨"Drink Water", some [], none, none⟩] } := by
  simp [Frontend.initializeEmpty, Frontend.saveDataLocally]

/-- C9: the load policy of `initializeData`, with a working local storage and a finishing
streak loop. When the backend is available and answers with a document `r` that has
records, the displayed records, streak, flag and history are those of `r` and the local
copy becomes `r`, whatever it held. When no remote document is obtained (backend
unavailable, or the request fails) and a local copy with records exists, the display is
that of the local copy, which is left as it is and is not written again. When neither is
available the display is the default habit "Drink Water" with empty records and streak 0,
and that default is saved locally. -/
theorem C9_load_policy (z : Zone) (fuel : Nat) (now : Int) (st : Frontend.State)
    (l : Option Frontend.Doc) (api : Option Frontend.Doc) :
    (∀ (r : Frontend.Doc) (rr : Records) (k : Nat), r.records = some rr →
      Frontend.calculateStreak z fuel now (some rr) = some (Result.ok k) →
      ∃ st1 : Frontend.State,
        Frontend.initializeData z fuel now (some r) true
          { st with backendAvailable := true, localStore := l } = some st1 ∧
        st1.habitData = ⟨Frontend.orElse r.name "Drink Water", k,
          truthy (rr.get (getTodayString now)), getLast7Days z rr now, some rr⟩ ∧
        st1.localStore = some r ∧
        st1.error = st.error ∧ st1.loading = false) ∧
    (∀ (ld : Frontend.Doc) (lr : Records) (k : Nat) (avail : Bool), ld.records = some lr →
      Frontend.calculateStreak z fuel now (some lr) = some (Result.ok k) →
      ∃ st1 : Frontend.State,
        Frontend.initializeData z fuel now (if avail then none else api) true
          { st with backendAvailable := avail, localStore := some ld } = some st1 ∧
        st1.habitData = ⟨Frontend.orElse ld.name "Drink Water", k,
          truthy (lr.get (getTodayString now)), getLast7Days z lr now, some lr⟩ ∧
        st1.localStore = some ld ∧
        (∀ data : Frontend.Doc, Frontend.Event.savedLocally data ∈ st1.trace →
          Frontend.Event.savedLocally data ∈ st.trace) ∧
        st1.error = st.error ∧ st1.loading = false) ∧
    (∀ avail : Bool, ∃ st1 : Frontend.State,
      Frontend.initializeData z fuel now (if avail then none else api) true
        { st with backendAvailable := avail, localStore := none } = some st1 ∧
      st1.habitData = ⟨"Drink Water", 0, false, getLast7Days z [] now, some []⟩ ∧
      st1.localStore = some ⟨"Drink Water", some [], none, none⟩ ∧
      Frontend.Event.savedLocally ⟨"Drink Water", some [], none, none⟩ ∈ st1.trace ∧
      st1.error = st.error ∧ st1.loading = false) := by
  refine ⟨?_, ?_, ?_⟩
  · intro r rr k hr hk
    simp [Frontend.initializeData, Frontend.syncWithBackend, Frontend.loadDataLocally, hr, hk,
      Frontend.saveDataLocally, getTodayString]
  · intro ld lr k avail hr hk
    cases avail with
    | false =>
      simp [Frontend.initializeData, Frontend.loadDataLocally, hr, hk, getTodayString]
    | true =>
      simp [Frontend.initializeData, Frontend.syncWithBackend, Frontend.loadDataLocally, hr, hk,
        getTodayString]
  · intro avail
    cases avail with
    | false =>
      simp [Frontend.initializeData, Frontend.loadDataLocally, Frontend.initializeEmpty_ok]
    | true =>
      simp [Frontend.initializeData, Frontend.syncWithBackend, Frontend.loadDataLocally,
        Frontend.initializeEmpty_ok]

/-- C9 with the remote document of the example over a local copy with empty records, and
with that local copy alone. -/
theorem C9_load_policy_witness :
    (∃ st1 : Frontend.State,
      Frontend.initializeData Zone.utc 5 jan3At11 (some remoteDoc) true
        { Frontend.initialState none with backendAvailable := true, localStore := some localDoc }
        = some st1 ∧
      st1.habitData = ⟨Frontend.orElse remoteDoc.name "Drink Water", 1,
        truthy ((Records.complete [] jan3At10).get (getTodayString jan3At11)),
        getLast7Days Zone.utc (Records.complete [] jan3At10) jan3At11,
        some (Records.complete [] jan3At10)⟩ ∧
      st1.localStore = some remoteDoc ∧
      st1.error = (Frontend.initialState none).error ∧ st1.loading = false) ∧
    (∃ st1 : Frontend.State,
      Frontend.initializeData Zone.utc 5 jan3At11 (if false then none else some remoteDoc) true
        { Frontend.initialState none with backendAvailable := false, localStore := some localDoc }
        = some st1 ∧
      st1.habitData = ⟨Frontend.orElse localDoc.name "Drink Water", 0,
        truthy (Records.get [] (getTodayString jan3At11)),
        getLast7Days Zone.utc [] jan3At11, some []⟩ ∧
      st1.localStore = some localDoc ∧
      (∀ data : Frontend.Doc, Frontend.Event.savedLocally data ∈ st1.trace →
        Frontend.Event.savedLocally data ∈ (Frontend.initialState none).trace) ∧
      st1.error = (Frontend.initialState none).error ∧ st1.loading = false) :=
  ⟨(C9_load_policy Zone.utc 5 jan3At11 (Frontend.initialState none) (some localDoc)
      (some remoteDoc)).1 remoteDoc (Records.complete [] jan3At10) 1 rfl (by decide),
   (C9_load_policy Zone.utc 5 jan3At11 (Frontend.initialState none) (some localDoc)
      (some remoteDoc)).2.1 localDoc [] 0 false rfl (by decide)⟩

/-! ## C10 -/

/-- What `resetHabit` leaves when the local write succeeds. -/
theorem Frontend.resetHabit_ok (z : Zone) (now : Int) (apiOk : Bool) (st : Frontend.State) :
    Frontend.resetHabit z now apiOk true st =
      { st with
        habitData := ⟨st.habitData.name, 0, false, getLast7Days z [] now, some []⟩
        localStore := some ⟨st.habitData.name, some [], none, none⟩
        syncStatus :=
          if st.backendAvailable then
            (if apiOk then Frontend.SyncStatus.synced else Frontend.SyncStatus.error)
          else st.syncStatus
        trace := st.trace ++
          Frontend.Event.savedLocally ⟨st.habitData.name, some [], none, none⟩ ::
            (if st.backendAvailable then [Frontend.Event.remoteCall Frontend.Action.reset]
             else []) } := by
  by_cases hb : st.backendAvailable = false <;> cases apiOk <;>
    simp [Frontend.resetHabit, Frontend.saveDataLocally, Frontend.syncWithBackend, hb]

/-- What `markDone` leaves when the local write succeeds and the loop returns `k`. -/
theorem Frontend.markDone_ok (z : Zone) (fuel : Nat) (now : Int) (apiOk : Bool)
    (st : Frontend.State) (k : Nat)
    (hk : Frontend.calculateStreak z fuel now
      (some ((st.habitData.records.getD []).complete now)) = some (Result.ok k)) :
    Frontend.markDone z fuel now apiOk true st =
      some { st with
        habitData := ⟨st.habitData.name, k, true,
          getLast7Days z ((st.habitData.records.getD []).complete now) now,
          some ((st.habitData.records.getD []).complete now)⟩
        localStore := some ⟨st.habitData.name,
          some ((st.habitData.records.getD []).complete now), none, none⟩
        syncStatus :=
          if st.backendAvailable then
            (if apiOk then Frontend.SyncStatus.synced else Frontend.SyncStatus.error)
          else st.syncStatus
        trace := st.trace ++
          Frontend.Event.savedLocally ⟨st.habitData.name,
            some ((st.habitData.records.getD []).complete now), none, none⟩ ::
            (if st.backendAvailable then [Frontend.Event.remoteCall Frontend.Action.complete]
             else []) } := by
  by_cases hb : st.backendAvailable = false <;> cases apiOk <;>
    simp [Frontend.markDone, Frontend.saveDataLocally, Frontend.syncWithBackend, hb, hk]


/-- The part of the component that the remote outcome must not touch: the local copy, the
habit state and the error shown to the user. -/
theorem Frontend.markDone_remote_indep (z : Zone) (fuel : Nat) (now : Int) (localOk : Bool)
    (st : Frontend.State) (avail1 api1 avail2 api2 : Bool) :
    (Frontend.markDone z fuel now api1 localOk { st with backendAvailable := avail1 }).map
        (fun s => (s.localStore, s.habitData, s.error)) =
      (Frontend.markDone z fuel now api2 localOk { st with backendAvailable := avail2 }).map
        (fun s => (s.localStore, s.habitData, s.error)) := by
  cases localOk with
  | false => simp [Frontend.markDone, Frontend.saveDataLocally]
  | true =>
    cases hc : Frontend.calculateStreak z fuel now
        (some ((st.habitData.records.getD []).complete now)) with
    | none => simp [Frontend.markDone, Frontend.saveDataLocally, hc]
    | some x =>
      obtain ⟨k, rfl⟩ := frontend_calculateStreak_ok _ _ _ _ _ hc
      rw [Frontend.markDone_ok z fuel now api1 _ k (by simpa using hc),
        Frontend.markDone_ok z fuel now api2 _ k (by simpa using hc)]
      simp

/-- C10: for `markDone` and `resetHabit`, two runs that differ only in the remote outcome
(backend unavailable, request succeeds, request fails) leave the same local copy, the same
habit state (records, streak, completedToday, history) and the same error, and finish or
not alike. When the local write succeeds the error is not touched, the local copy is the
new state and is written before the remote call, which is attempted only when the backend
is available; a failing request differs from a succeeding one in the sync status only.
On a host with a fixed offset `markDone` finishes once the fuel exceeds the number of
keys by more than one. -/
theorem C10_local_first (z : Zone) (fuel : Nat) (now : Int) (localOk : Bool)
    (st : Frontend.State) (avail1 api1 avail2 api2 : Bool) :
    (Frontend.markDone z fuel now api1 localOk { st with backendAvailable := avail1 }).map
        (fun s => (s.localStore, s.habitData, s.error)) =
      (Frontend.markDone z fuel now api2 localOk { st with backendAvailable := avail2 }).map
        (fun s => (s.localStore, s.habitData, s.error)) ∧
    (fun s : Frontend.State => (s.localStore, s.habitData, s.error))
        (Frontend.resetHabit z now api1 localOk { st with backendAvailable := avail1 }) =
      (fun s : Frontend.State => (s.localStore, s.habitData, s.error))
        (Frontend.resetHabit z now api2 localOk { st with backendAvailable := avail2 }) ∧
    (∀ st1 : Frontend.State,
      Frontend.markDone z fuel now api1 true { st with backendAvailable := avail1 } = some st1 →
      st1.error = st.error ∧
      st1.localStore = some ⟨st.habitData.name,
        some ((st.habitData.records.getD []).complete now), none, none⟩ ∧
      st1.habitData.records = some ((st.habitData.records.getD []).complete now) ∧
      st1.habitData.completedToday = true ∧
      st1.trace = st.trace ++
        Frontend.Event.savedLocally ⟨st.habitData.name,
          some ((st.habitData.records.getD []).complete now), none, none⟩ ::
          (if avail1 then [Frontend.Event.remoteCall Frontend.Action.complete] else []) ∧
      st1.syncStatus =
        (if avail1 then
          (if api1 then Frontend.SyncStatus.synced else Frontend.SyncStatus.error)
         else st.syncStatus)) ∧
    ((Frontend.resetHabit z now api1 true { st with backendAvailable := avail1 }).error
        = st.error ∧
      (Frontend.resetHabit z now api1 true { st with backendAvailable := avail1 }).localStore
        = some ⟨st.habitData.name, some [], none, none⟩ ∧
      (Frontend.resetHabit z now api1 true { st with backendAvailable := avail1 }).trace
        = st.trace ++ Frontend.Event.savedLocally ⟨st.habitData.name, some [], none, none⟩ ::
            (if avail1 then [Frontend.Event.remoteCall Frontend.Action.reset] else []) ∧
      (Frontend.resetHabit z now api1 true { st with backendAvailable := avail1 }).syncStatus
        = (if avail1 then
            (if api1 then Frontend.SyncStatus.synced else Frontend.SyncStatus.error)
           else st.syncStatus)) ∧
    ((Frontend.markDone z fuel now false true { st with backendAvailable := avail1 }).map
        (fun s => { s with syncStatus := Frontend.SyncStatus.local_ }) =
      (Frontend.markDone z fuel now true true { st with backendAvailable := avail1 }).map
        (fun s => { s with syncStatus := Frontend.SyncStatus.local_ })) ∧
    ({ Frontend.resetHabit z now false true { st with backendAvailable := avail1 } with
        syncStatus := Frontend.SyncStatus.local_ } =
      { Frontend.resetHabit z now true true { st with backendAvailable := avail1 } with
        syncStatus := Frontend.SyncStatus.local_ }) ∧
    (∀ c : Int, (st.habitData.records.getD []).length + 1 < fuel →
      ∃ st1 : Frontend.State,
        Frontend.markDone (Zone.fixed c) fuel now api1 true
          { st with backendAvailable := avail1 } = some st1) := by
  refine ⟨Frontend.markDone_remote_indep z fuel now localOk st avail1 api1 avail2 api2,
    ?_, ?_, ?_, ?_, ?_, ?_⟩
  · cases localOk with
    | false => simp [Frontend.resetHabit, Frontend.saveDataLocally]
    | true => simp [Frontend.resetHabit_ok]
  · intro st1 h
    cases hc : Frontend.calculateStreak z fuel now
        (some ((st.habitData.records.getD []).complete now)) with
    | none => simp [Frontend.markDone, Frontend.saveDataLocally, hc] at h
    | some x =>
      obtain ⟨k, rfl⟩ := frontend_calculateStreak_ok _ _ _ _ _ hc
      rw [Frontend.markDone_ok z fuel now api1 _ k (by simpa using hc)] at h
      simp only [Option.some.injEq] at h
      subst h
      simp
  · simp [Frontend.resetHabit_ok]
  · cases hc : Frontend.calculateStreak z fuel now
        (some ((st.habitData.records.getD []).complete now)) with
    | none => simp [Frontend.markDone, Frontend.saveDataLocally, hc]
    | some x =>
      obtain ⟨k, rfl⟩ := frontend_calculateStreak_ok _ _ _ _ _ hc
      rw [Frontend.markDone_ok z fuel now false _ k (by simpa using hc),
        Frontend.markDone_ok z fuel now true _ k (by simpa using hc)]
      simp
  · simp [Frontend.resetHabit_ok]
  · intro c hf
    obtain ⟨k, _, h⟩ := calculateStreak_fixed_returns c
      ((st.habitData.records.getD []).complete now) now
    have hlen : ((st.habitData.records.getD []).complete now).length
        ≤ (st.habitData.records.getD []).length + 1 := by
      have h1 : ((st.habitData.records.getD []).complete now).keys.length
          ≤ (st.habitData.records.getD []).keys.length + 1 := by
        unfold Records.complete
        by_cases hm : getTodayString now ∈ (st.habitData.records.getD []).keys
        · rw [Records.keys_set_of_mem _ _ _ hm]; omega
        · rw [Records.keys_set_of_not_mem _ _ _ hm]; simp
      simpa [Records.keys] using h1
    obtain ⟨k1, hk1⟩ := (h fuel (by omega)).2
    exact ⟨_, Frontend.markDone_ok (Zone.fixed c) fuel now api1 _ k1 (by simpa using hk1)⟩

/-- C10 for the first `markDone` of the example, with no backend. -/
theorem C10_local_first_witness :
    Frontend.markDone Zone.utc 5 jan3At10 false true
      { loadedEmpty with backendAvailable := false } = some markedOnce ∧
    markedOnce.error = loadedEmpty.error ∧
    markedOnce.localStore = some ⟨loadedEmpty.habitData.name,
      some ((loadedEmpty.habitData.records.getD []).complete jan3At10), none, none⟩ :=
  ⟨rfl,
   ((C10_local_first Zone.utc 5 jan3At10 true loadedEmpty false false false false).2.2.1
      markedOnce rfl).1,
   ((C10_local_first Zone.utc 5 jan3At10 true loadedEmpty false false false false).2.2.1
      markedOnce rfl).2.1⟩

/-! ## C11 -/

/-- C11 does not hold on the code. In US Eastern time at 2024-03-10T23:30Z the date key after
one step back is again 2024-03-10, and the 7 history dates are not distinct. In US
Eastern time at 2024-11-04T00:30Z the date key after one step back is 2024-11-02: the
walk skips 2024-11-03, so that on a store holding 2, 3 and 4 November both
`calculateStreak` return 2, and the history dates are 28 October .. 2 November and
4 November. -/
theorem C11_step_repeats_or_skips_a_date :
    toISODate (setDate easternMarch2024 eveningOfChange
        (getDate easternMarch2024 eveningOfChange - 1))
      ≠ toISODate eveningOfChange - 1 ∧
    civilFromDays (toISODate (setDate easternMarch2024 eveningOfChange
        (getDate easternMarch2024 eveningOfChange - 1))) = (2024, 3, 10) ∧
    ¬ ((getLast7Days easternMarch2024 [] eveningOfChange).map HistoryEntry.date).Nodup ∧
    civilFromDays (getTodayString eveningAfterFallBack) = (2024, 11, 4) ∧
    civilFromDays (toISODate (setDate easternNovember2024 eveningAfterFallBack
        (getDate easternNovember2024 eveningAfterFallBack - 1))) = (2024, 11, 2) ∧
    firstDaysOfNovember.keys =
      [getTodayString eveningAfterFallBack - 2, getTodayString eveningAfterFallBack - 1,
       getTodayString eveningAfterFallBack] ∧
    (∀ fuel : Nat, Backend.calculateStreak easternNovember2024 (fuel + 3) eveningAfterFallBack
      (some firstDaysOfNovember) = some (Result.ok 2)) ∧
    (∀ fuel : Nat, Frontend.calculateStreak easternNovember2024 (fuel + 3) eveningAfterFallBack
      (some firstDaysOfNovember) = some (Result.ok 2)) ∧
    (∀ records : Records,
      (getLast7Days easternNovember2024 records eveningAfterFallBack).map
          (fun e => civilFromDays e.date) =
        [(2024, 10, 28), (2024, 10, 29), (2024, 10, 30), (2024, 10, 31), (2024, 11, 1),
         (2024, 11, 2), (2024, 11, 4)]) := by
  refine ⟨by decide, by decide, by decide, by decide, by decide, by decide, ?_, ?_, ?_⟩
  · intro fuel
    simp only [Backend.calculateStreak]
    rw [streakLoop, if_pos (by decide), streakLoop, if_pos (by decide), streakLoop,
      if_neg (by decide)]
    rfl
  · intro fuel
    simp only [Frontend.calculateStreak]
    rw [if_neg (by decide), streakLoop, if_pos (by decide), streakLoop, if_pos (by decide),
      streakLoop, if_neg (by decide)]
    rfl
  · intro records
    simp only [getLast7Days_eq, List.map, historyEntry]
    decide

/-! ## C12 -/

/-- A walk whose step back does not move, on a date that the store holds, never ends. -/
theorem streakLoop_stuck (z : Zone) (records : Records) (t : Int)
    (hfix : setDate z t (getDate z t - 1) = t)
    (hkey : truthy (records.get (toISODate t)) = true) :
    ∀ (fuel s : Nat), streakLoop z records fuel t s = none := by
  intro fuel
  induction fuel with
  | zero => intro s; rfl
  | succ f ih =>
    intro s
    rw [streakLoop, if_pos hkey, hfix]
    exact ih (s + 1)

/-- C12 does not hold on the code. In US Eastern time at 2024-03-10T23:30Z, on the store whose only
key is 2024-03-10, both `calculateStreak` return 2, more than the one key of the store.
In Pacific/Apia at 2011-12-30T10:30Z (00:30 of 31 December, the day after the skipped
30 December), on the store that `markDone` has just written, the step back one local day
gives the same time again and the loop does not end, whatever the fuel: neither
`POST /api/habit/complete` nor `markDone` gets to answer. -/
theorem C12_streak_exceeds_keys_or_loops :
    onlyTenthOfMarch.keys.length = 1 ∧
    (∀ fuel : Nat, ∃ k : Nat,
      Backend.calculateStreak easternMarch2024 (fuel + 3) eveningOfChange
        (some onlyTenthOfMarch) = some (Result.ok k) ∧
      Frontend.calculateStreak easternMarch2024 (fuel + 3) eveningOfChange
        (some onlyTenthOfMarch) = some (Result.ok k) ∧
      onlyTenthOfMarch.keys.length < k) ∧
    setDate apiaDecember2011 apiaAfterSkippedDay
      (getDate apiaDecember2011 apiaAfterSkippedDay - 1) = apiaAfterSkippedDay ∧
    (Records.complete [] apiaAfterSkippedDay).keys = [daysFromCivil 2011 12 30] ∧
    (∀ fuel : Nat,
      Backend.calculateStreak apiaDecember2011 fuel apiaAfterSkippedDay
        (some (Records.complete [] apiaAfterSkippedDay)) = none ∧
      Frontend.calculateStreak apiaDecember2011 fuel apiaAfterSkippedDay
        (some (Records.complete [] apiaAfterSkippedDay)) = none ∧
      (Backend.postComplete apiaDecember2011 fuel apiaAfterSkippedDay
        Backend.WriteOutcome.written
        Backend.freshStore).2 = none ∧
      Frontend.markDone apiaDecember2011 fuel apiaAfterSkippedDay false true loadedEmpty
        = none) := by
  refine ⟨by decide, ?_, by decide, by decide, ?_⟩
  · intro fuel
    refine ⟨2, ?_, ?_, by decide⟩
    · simp only [Backend.calculateStreak]
      rw [streakLoop, if_pos (by decide), streakLoop, if_pos (by decide), streakLoop,
        if_neg (by decide)]
      rfl
    · simp only [Frontend.calculateStreak]
      rw [if_neg (by decide), streakLoop, if_pos (by decide), streakLoop, if_pos (by decide),
        streakLoop, if_neg (by decide)]
      rfl
  · intro fuel
    have hstuck := streakLoop_stuck apiaDecember2011 (Records.complete [] apiaAfterSkippedDay)
      apiaAfterSkippedDay (by decide) (by decide) fuel 0
    have hback : Backend.calculateStreak apiaDecember2011 fuel apiaAfterSkippedDay
        (some (Records.complete [] apiaAfterSkippedDay)) = none := by
      simp [Backend.calculateStreak, hstuck]
    have hfront : Frontend.calculateStreak apiaDecember2011 fuel apiaAfterSkippedDay
        (some (Records.complete [] apiaAfterSkippedDay)) = none := by
      simp only [Frontend.calculateStreak]
      rw [if_neg (by decide), hstuck]
      rfl
    refine ⟨hback, hfront, ?_, ?_⟩
    · simp [Backend.postComplete, Backend.readData, Backend.writeData, Backend.freshStore,
        Backend.initialData, hback]
    · have hrec : loadedEmpty.habitData.records = some [] := rfl
      simp [Frontend.markDone, Frontend.saveDataLocally, hrec, hfront]

end HabitLogger
